import Mathlib

/-!
# Verification of the M365 license-report pipeline (`src/license-report.py`)

A shallow embedding of the data-processing pipeline of `license-report.py`
(the license-utilization reporting job) in Lean 4, together with theorems
checking the repository's specification claims against it.

Modelling conventions:

* Python strings are modelled as `List Char` (abbreviated `Str`), so that
  every operation is executable and kernel-decidable.  The core `String`
  functions of Lean (`toLower`, `≤`, `trim`) are iterator-based and do not
  reduce in the kernel, hence the explicit character-list implementations.
* Timestamps are modelled at two levels of abstraction, matching the two
  phases of the source.  Free-text parsing (`pd.to_datetime` /
  `parse_date_any`, lines 106–139 and 426/433 of the source) produces an
  `Option ParsedTs`, a calendar timestamp record; `none` models `NaT`.
  Downstream of the timezone conversion (source lines 432–434) a civil date
  is modelled as an `Int` day number (order-isomorphic to dates); the
  US/Eastern calendar conversion itself is presentation glue and is not
  re-modelled, its output is taken as the pipeline input at that stage.
* Python floats are modelled as exact rationals `ℚ`.  `round` in Python and
  `.round` in pandas/numpy round half to even, which `roundHalfEven` below
  implements exactly.
* Monetary unit costs (`UNIT_COST_DICTIONARY`, source lines 18–44) are kept
  in integer cents (`3.00` dollars ↦ `300`), which is exact for every
  literal in the source and keeps the paid-SKU tests kernel-decidable.
-/

/-- Python strings, modelled as lists of characters. -/
abbrev Str := List Char

/-! ## Character-level string helpers -/

/-- The zero-width space U+200B (removed by `parse_date_any`, source line 132). -/
def zwspChar : Char := Char.ofNat 0x200B

/-- The no-break space U+00A0 (replaced by a space, source line 132). -/
def nbspChar : Char := Char.ofNat 0x00A0

/-- The byte-order mark U+FEFF (removed by `parse_date_any`, source line 132). -/
def bomChar : Char := Char.ofNat 0xFEFF

/-- The whitespace set of Python's `str.strip()` (ASCII whitespace together
with the Unicode space characters that Python treats as whitespace; note it
contains U+00A0 but neither U+200B nor U+FEFF). -/
def pyIsSpace (c : Char) : Bool :=
  c = ' ' || c = '\t' || c = '\n' || c = '\r' ||
  c = Char.ofNat 0x0B || c = Char.ofNat 0x0C ||
  c = Char.ofNat 0x1C || c = Char.ofNat 0x1D || c = Char.ofNat 0x1E ||
  c = Char.ofNat 0x1F || c = Char.ofNat 0x85 || c = nbspChar ||
  c = Char.ofNat 0x1680 ||
  (0x2000 ≤ c.toNat && c.toNat ≤ 0x200A) ||
  c = Char.ofNat 0x2028 || c = Char.ofNat 0x2029 ||
  c = Char.ofNat 0x202F || c = Char.ofNat 0x205F || c = Char.ofNat 0x3000

/-- Remove trailing characters satisfying `p` (helper for `strip`). -/
def dropTrailWhile (p : Char → Bool) (s : Str) : Str :=
  (s.reverse.dropWhile p).reverse

/-- Python's `str.strip()`: remove leading and trailing whitespace. -/
def pyStrip (s : Str) : Str :=
  dropTrailWhile pyIsSpace (s.dropWhile pyIsSpace)

/-- ASCII-only trim, modelling the tolerance of the underlying timestamp
parser (`pd.to_datetime`) for surrounding plain whitespace. -/
def asciiTrim (s : Str) : Str :=
  let ws : Char → Bool := fun c => c = ' ' || c = '\t' || c = '\n' || c = '\r'
  dropTrailWhile ws (s.dropWhile ws)

/-- Python's `str.lower()` (ASCII case folding suffices for the source's
uses: UPN keys and the literal `"nan"` test). -/
def pyLower (s : Str) : Str := s.map Char.toLower

/-- Python's `str.replace(old, "")` for the single character `old`. -/
def removeChar (old : Char) (s : Str) : Str := s.filter (fun c => c ≠ old)

/-- Python's `str.replace(old, new)` for single characters. -/
def replaceChar (old new : Char) (s : Str) : Str :=
  s.map (fun c => if c = old then new else c)

/-- Python's `str.replace(".000", "")`: remove every (non-overlapping,
left-to-right) occurrence of the literal substring `.000`
(source line 137). -/
def removeDot000 : Str → Str
  | '.' :: '0' :: '0' :: '0' :: rest => removeDot000 rest
  | c :: rest => c :: removeDot000 rest
  | [] => []

/-! ## Timestamp parsing

`ParsedTs` is a calendar timestamp (UTC, second precision; fractional
seconds are validated but discarded).  `parseTimestampCore` models
`pd.to_datetime(s, errors="coerce", utc=True)` restricted to the ISO-8601
forms `YYYY-MM-DD`, optionally followed by a time `THH:MM:SS` (with `T` or a
space as separator), an optional fractional-seconds part, and an optional
trailing `Z`; any other input coerces to `none` (`NaT`).  In particular a
string containing a stray zero-width space, no-break space or BOM character
does not parse, exactly as in pandas. -/

structure ParsedTs where
  year : Nat
  month : Nat
  day : Nat
  hour : Nat
  minute : Nat
  second : Nat
deriving DecidableEq

/-- The numeric value of a decimal digit character, `none` otherwise. -/
def digitVal (c : Char) : Option Nat :=
  if c.isDigit then some (c.toNat - 48) else none

/-- Read a two-digit decimal number. -/
def num2 (a b : Char) : Option Nat := do
  pure ((← digitVal a) * 10 + (← digitVal b))

/-- Read a four-digit decimal number. -/
def num4 (a b c d : Char) : Option Nat := do
  pure ((← digitVal a) * 1000 + (← digitVal b) * 100 +
    (← digitVal c) * 10 + (← digitVal d))

/-- Accept what may follow the seconds field: end of input, a trailing `Z`,
or a nonempty run of fractional-second digits optionally followed by `Z`. -/
def validTsTail (s : Str) : Bool :=
  match s with
  | [] => true
  | ['Z'] => true
  | '.' :: rest =>
      let ds := rest.takeWhile Char.isDigit
      !ds.isEmpty &&
        (match rest.dropWhile Char.isDigit with
         | [] => true
         | ['Z'] => true
         | _ => false)
  | _ => false

/-- Parse the `HH:MM:SS[.fff][Z]` part of a timestamp. -/
def parseTimePart (s : Str) : Option (Nat × Nat × Nat) :=
  match s with
  | h1 :: h2 :: ':' :: m1 :: m2 :: ':' :: s1 :: s2 :: rest => do
      let h ← num2 h1 h2
      let mi ← num2 m1 m2
      let se ← num2 s1 s2
      if h ≤ 23 ∧ mi ≤ 59 ∧ se ≤ 59 ∧ validTsTail rest then
        pure (h, mi, se)
      else none
  | _ => none

/-- Parse an ISO-ish timestamp string (already trimmed). -/
def parseTimestampCore (s : Str) : Option ParsedTs :=
  match s with
  | y1 :: y2 :: y3 :: y4 :: '-' :: m1 :: m2 :: '-' :: d1 :: d2 :: rest => do
      let y ← num4 y1 y2 y3 y4
      let mo ← num2 m1 m2
      let d ← num2 d1 d2
      if 1 ≤ mo ∧ mo ≤ 12 ∧ 1 ≤ d ∧ d ≤ 31 then
        match rest with
        | [] => pure ⟨y, mo, d, 0, 0, 0⟩
        | sep :: timeStr =>
            if sep = 'T' ∨ sep = ' ' then do
              let (h, mi, se) ← parseTimePart timeStr
              pure ⟨y, mo, d, h, mi, se⟩
            else none
      else none
  | _ => none

/-- `pd.to_datetime(s, errors="coerce", utc=True)` on one string: tolerate
surrounding plain whitespace, then parse; unparseable input yields `none`
(`NaT`), never an error. -/
def parseTimestamp (s : Str) : Option ParsedTs :=
  parseTimestampCore (asciiTrim s)

/-- `parse_date_any` (source lines 106–139): strip whitespace, replace
no-break spaces by spaces, remove zero-width spaces and BOMs, treat the
empty string and a case-insensitive literal `nan` as unparseable, remove
every `Z` and every `.000` substring, then coerce-parse as a UTC timestamp.
`none` input models Python `None` (source line 129). -/
def parse_date_any (date : Option Str) : Option ParsedTs :=
  match date with
  | none => none
  | some d =>
      let s := removeChar bomChar
        (removeChar zwspChar (replaceChar nbspChar ' ' (pyStrip d)))
      if s = [] ∨ pyLower s = "nan".data then none
      else parseTimestamp (removeDot000 (removeChar 'Z' s))

/-- Elementwise `pd.to_datetime(column, errors="coerce", utc=True)`;
`none` input models a missing value (`NaN`), which coerces to `NaT`. -/
def coerceParse (v : Option Str) : Option ParsedTs :=
  v.bind parseTimestamp

/-- Source line 426: the pipeline's conversion of the activity table's
`LastActivityDate` strings, a plain coercing parse applied to each
`(UPN_lower, raw date)` pair.  (It does not call `parse_date_any`.) -/
def convertActivityDates (l : List (Str × Option Str)) :
    List (Str × Option ParsedTs) :=
  l.map (fun p => (p.1, coerceParse p.2))

/-! ## Half-even rounding on exact rationals -/

/-- Round half to even (the rounding of Python's `round` and of
pandas/numpy `.round`), as an integer-valued function on `ℚ`. -/
def roundHalfEven (q : ℚ) : ℤ :=
  if q - (⌊q⌋ : ℚ) < 1/2 then ⌊q⌋
  else if (1 : ℚ)/2 < q - (⌊q⌋ : ℚ) then ⌊q⌋ + 1
  else if Even ⌊q⌋ then ⌊q⌋ else ⌊q⌋ + 1

/-- Python's `round(q, n)` / pandas `.round(n)` on exact rationals. -/
def roundTo (n : ℕ) (q : ℚ) : ℚ :=
  (roundHalfEven (q * 10 ^ n) : ℚ) / 10 ^ n

/-! ## Data model

Records mirror the dataframes built by `get_licenses`, `get_all_users` and
`get_users_activity_status`.  Only the fields the processing pipeline reads
are carried (`mail`, `assignedPlans` and the unit-count columns other than
`total_enabled` are never consumed downstream of ingestion). -/

/-- One row of `skus_df` (from `get_licenses`, source lines 172–197), with
the fields the pipeline reads: the id→part-number mapping and the enabled
unit count. -/
structure SkuRecord where
  skuId : Str
  skuPartNumber : Str
  total_enabled : Nat
deriving DecidableEq

/-- A raw Graph user object as consumed by `get_all_users` (source lines
241–252): every field except `id` may be absent. -/
structure RawGraphUser where
  id : Str
  displayName : Option Str
  userPrincipalName : Option Str
  accountEnabled : Option Bool
  userType : Option Str
  createdDateTime : Option Str
  assignedLicenses : List Str
deriving DecidableEq

/-- One row of `users_df`, with the defaults applied by `get_all_users`
(source lines 242–252): in particular a missing `accountEnabled` defaults
to `true` (line 247). -/
structure UserRec where
  id : Str
  displayName : Str
  UPN : Str
  accountEnabled : Bool
  userType : Str
  createdDateTime : Str
  assignedLicenses : List Str
deriving DecidableEq

/-- The row constructed by `get_all_users` for one raw user (source lines
242–252). -/
def get_all_users_row (u : RawGraphUser) : UserRec :=
  { id := u.id
    displayName := u.displayName.getD []
    UPN := u.userPrincipalName.getD []
    accountEnabled := u.accountEnabled.getD true
    userType := u.userType.getD "Member".data
    createdDateTime := u.createdDateTime.getD []
    assignedLicenses := u.assignedLicenses }

/-- One row of `activity_df` after the date conversion of source line 426
and the Eastern-date conversion of line 432; the activity date is an
Eastern civil date as a day number (`none` = `NaT`). -/
structure ActivityRow where
  upnLower : Str
  lastActivityDate : Option Int
deriving DecidableEq

/-- One row of `merged_df` (source line 429): a user together with the
activity date the left join attached (`none` when no activity row
matched, or the matched row carried `NaT`). -/
structure MergedRow where
  user : UserRec
  lastActivityDate : Option Int
deriving DecidableEq

/-- The join-key normalization of source lines 427–428:
`fillna("").astype(str).str.strip().str.lower()`. -/
def normKey (s : Str) : Str := pyLower (pyStrip s)

/-- `users_df.merge(activity_df, how="left", on="UPN_lower")` (source line
429): a plain non-deduplicating left merge — each user row is emitted once
per matching activity row, or once with a null date when nothing matches. -/
def leftMerge (users : List UserRec) (act : List ActivityRow) :
    List MergedRow :=
  users.flatMap (fun u =>
    let ms := act.filter (fun a => normKey a.upnLower == normKey u.UPN)
    if ms.isEmpty then [⟨u, none⟩]
    else ms.map (fun a => ⟨u, a.lastActivityDate⟩))

/-! ## Flag derivation -/

/-- `PERIOD_DAYS` (source line 13). -/
def PERIOD_DAYS : Int := 30

/-- `inactivity_cutoff` (source line 437): today's Eastern date minus
`PERIOD_DAYS` days. -/
def inactivity_cutoff (todayEastern : Int) : Int := todayEastern - PERIOD_DAYS

/-- The `Inactive30d` flag (source line 438): `true` for a null date,
otherwise `true` iff the date is on or before the cutoff. -/
def Inactive30d (cutoff : Int) (m : MergedRow) : Bool :=
  match m.lastActivityDate with
  | none => true
  | some ts => ts ≤ cutoff

/-- `UNIT_COST_DICTIONARY` (source lines 18–44), unit costs in integer
cents (`3.00` dollars ↦ `300`; exact for every literal in the source). -/
def UNIT_COST_DICTIONARY : List (Str × Nat) :=
  [ ("ATP_ENTERPRISE".data, 300)
  , ("Clipchamp_Standard".data, 700)
  , ("DYN365_BUSCENTRAL_ESSENTIAL".data, 7000)
  , ("ENTERPRISEPACK".data, 3600)
  , ("EXCHANGEDESKLESS".data, 400)
  , ("EXCHANGEENTERPRISE".data, 800)
  , ("EXCHANGESTANDARD".data, 400)
  , ("MCOMEETADV".data, 200)
  , ("MCOTEAMS_ESSENTIALS".data, 400)
  , ("Microsoft_365_Copilot".data, 3000)
  , ("Microsoft_365_E3_(no_Teams)".data, 3300)
  , ("Microsoft_Teams_Enterprise_New".data, 700)
  , ("Microsoft_Teams_Exploratory_Dept".data, 0)
  , ("Microsoft_Teams_Premium".data, 700)
  , ("Microsoft_Teams_Rooms_Basic".data, 0)
  , ("Microsoft_Teams_Rooms_Pro".data, 4000)
  , ("PBI_PREMIUM_PER_USER".data, 2000)
  , ("POWERAPPS_DEV".data, 1000)
  , ("POWER_BI_PRO".data, 1000)
  , ("PROJECTPROFESSIONAL".data, 3000)
  , ("SPE_E3".data, 3600)
  , ("SPE_E5".data, 5700)
  , ("THREAT_INTELLIGENCE".data, 200)
  , ("Teams_Phone_with_domestic_and_international_calling".data, 1500)
  , ("Teams_Premium_(for_Departments)".data, 700) ]

/-- `license_map = dict(zip(skus_df["skuId"], skus_df["skuPartNumber"]))`
followed by `.get(x, str(x))` (source lines 442–444): resolve a SKU id to
its part number, keeping an unresolved id verbatim.  A Python dict built
from pairs lets later pairs override earlier ones, hence the lookup over
the reversed list. -/
def resolveSku (skus : List SkuRecord) (x : Str) : Str :=
  match skus.reverse.find? (fun r => r.skuId == x) with
  | some r => r.skuPartNumber
  | none => x

/-- `";".join(...)`: join string parts with a semicolon separator. -/
def joinSemi (parts : List Str) : Str :=
  (List.intersperse [';'] parts).flatten

/-- Python's `lics.split(";")`: split at every semicolon, keeping empty
parts (so `"".split(";") = [""]`). -/
def splitSemi : Str → List Str
  | [] => [[]]
  | ';' :: rest => [] :: splitSemi rest
  | c :: rest =>
      match splitSemi rest with
      | p :: ps => (c :: p) :: ps
      | [] => [[c]]

/-- The sorted deduplicated resolved part numbers of one user's assigned
SKU ids: `sorted({license_map.get(x, str(x)) for x in (arr or [])})`
(source line 444).  Python's `sorted` on strings is the lexicographic
code-point order, which is the `≤` of `List Char`. -/
def licenseParts (skus : List SkuRecord) (arr : List Str) : List Str :=
  List.insertionSort (· ≤ ·) ((arr.map (resolveSku skus)).dedup)

/-- The display string `licenses` of one user (source lines 443–445). -/
def licensesStr (skus : List SkuRecord) (arr : List Str) : Str :=
  joinSemi (licenseParts skus arr)

/-- The `hasLicense` flag (source line 446): the display string is
nonempty. -/
def hasLicense (skus : List SkuRecord) (m : MergedRow) : Bool :=
  0 < (licensesStr skus m.user.assignedLicenses).length

/-- `paid_skus` (source line 449): part numbers with strictly positive
unit cost. -/
def paid_skus : List Str :=
  (UNIT_COST_DICTIONARY.filter (fun p => 0 < p.2)).map (fun p => p.1)

/-- `paid_excl = paid_skus.difference({"EXCHANGEENTERPRISE"})`
(source lines 450–451). -/
def paid_excl : List Str :=
  paid_skus.filter (fun s => s ≠ "EXCHANGEENTERPRISE".data)

/-- `has_paid` (source line 453): some nonempty part of the `;`-split
licenses string is a paid SKU. -/
def has_paid (lics : Str) : Bool :=
  ((splitSemi lics).filter (fun sku => !sku.isEmpty)).any
    (fun sku => paid_skus.contains sku)

/-- `has_paid_excl` (source line 454). -/
def has_paid_excl (lics : Str) : Bool :=
  ((splitSemi lics).filter (fun sku => !sku.isEmpty)).any
    (fun sku => paid_excl.contains sku)

/-- The `hasPaidLicense` flag (source line 457). -/
def hasPaidLicense (skus : List SkuRecord) (m : MergedRow) : Bool :=
  has_paid (licensesStr skus m.user.assignedLicenses)

/-- The `hasPaidLicenseExclExchEnt` flag (source line 458). -/
def hasPaidLicenseExclExchEnt (skus : List SkuRecord) (m : MergedRow) : Bool :=
  has_paid_excl (licensesStr skus m.user.assignedLicenses)

/-! ## Actionable rules -/

/-- `to_do1` (source line 463): licensed, inactive, holding a paid SKU. -/
def to_do1 (skus : List SkuRecord) (cutoff : Int) (merged : List MergedRow) :
    List MergedRow :=
  merged.filter (fun m =>
    hasLicense skus m && Inactive30d cutoff m && hasPaidLicense skus m)

/-- `to_do2` (source lines 467–471): licensed (with a paid SKU other than
EXCHANGEENTERPRISE) and account disabled. -/
def to_do2 (skus : List SkuRecord) (cutoff : Int) (merged : List MergedRow) :
    List MergedRow :=
  merged.filter (fun m =>
    hasLicense skus m && hasPaidLicenseExclExchEnt skus m &&
      m.user.accountEnabled == false)

/-- The `Reason` tag of rule 1 (source line 464). -/
def reasonInactive : Str := "Licensed but no activity in last 30d".data

/-- The `Reason` tag of rule 2 (source line 472). -/
def reasonDisabled : Str := "Disabled account has licenses".data

/-- One row of the `actionable` frame: a reason tag plus the user row. -/
structure ActionableRow where
  reason : Str
  row : MergedRow
deriving DecidableEq

/-- The unioned `actionable` frame (source lines 461–473): rule-1 rows
then rule-2 rows, still containing duplicates. -/
def actionableRows (skus : List SkuRecord) (cutoff : Int)
    (merged : List MergedRow) : List ActionableRow :=
  (to_do1 skus cutoff merged).map (fun m => ⟨reasonInactive, m⟩) ++
    (to_do2 skus cutoff merged).map (fun m => ⟨reasonDisabled, m⟩)

/-- The dedup key of the Actionable sheet: `(Reason, UPN)`
(source line 556). -/
def actKey (a : ActionableRow) : Str × Str := (a.reason, a.row.user.UPN)

/-- `drop_duplicates(subset=...)` with pandas' default `keep="first"`:
keep the first row carrying each key. -/
def dropDupByKey {α κ : Type} [DecidableEq κ] (key : α → κ) :
    List α → List α
  | [] => []
  | x :: xs =>
      x :: dropDupByKey key (xs.filter (fun y => !(key y == key x)))
termination_by l => l.length
decreasing_by
  simpa using Nat.lt_succ_of_le (List.length_filter_le _ xs)

/-- The `(reason, UPN)` display order of the Actionable sheet
(source line 557): lexicographic by reason, then UPN. -/
def actLE (a b : ActionableRow) : Prop :=
  a.reason < b.reason ∨ (a.reason = b.reason ∧ a.row.user.UPN ≤ b.row.user.UPN)

instance : DecidableRel actLE := fun a b => by
  unfold actLE; infer_instance

/-- The Actionable sheet as exported (source lines 555–557 / 569–571):
dedup by `(Reason, UPN)` keeping the first row, then sort by
`(Reason, UPN)`. -/
def actionableSheet (skus : List SkuRecord) (cutoff : Int)
    (merged : List MergedRow) : List ActionableRow :=
  List.insertionSort actLE
    (dropDupByKey actKey (actionableRows skus cutoff merged))

/-- The Users sheet row order (source lines 559/573): sorted by UPN. -/
def usersSheetRows (merged : List MergedRow) : List MergedRow :=
  List.insertionSort (fun a b => a.user.UPN ≤ b.user.UPN) merged

/-! ## Per-SKU utilization and SKU summary -/

/-- One entry of `sku_stats` (source lines 476–482): a SKU part number a
licensed user holds, tagged with whether that user is active
(`not Inactive30d`). -/
def skuStats (skus : List SkuRecord) (cutoff : Int)
    (merged : List MergedRow) : List (Str × Bool) :=
  merged.flatMap (fun m =>
    if hasLicense skus m then
      ((splitSemi (licensesStr skus m.user.assignedLicenses)).filter
          (fun sku => !sku.isEmpty)).map
        (fun sku => (sku, !Inactive30d cutoff m))
    else [])

/-- One row of the `util` frame (source lines 483–488). -/
structure UtilRow where
  skuPartNumber : Str
  licensedUsers : Nat
  activeUsers30d : Nat
  utilizationPct30d : ℚ
deriving DecidableEq

/-- The `util` frame (source lines 483–488): group `sku_stats` by part
number, summing the per-holding 1-counts, then
`utilizationPct30d = (active / licensed).round(4) * 100.0`. -/
def utilTable (skus : List SkuRecord) (cutoff : Int)
    (merged : List MergedRow) : List UtilRow :=
  let stats := skuStats skus cutoff merged
  ((stats.map (fun s => s.1)).dedup).map (fun k =>
    let grp := stats.filter (fun s => s.1 == k)
    let licensed := grp.length
    let active := (grp.filter (fun s => s.2)).length
    ⟨k, licensed, active,
      roundTo 4 ((active : ℚ) / (licensed : ℚ)) * 100⟩)

/-- The three utilization columns of one `sku_summary` row (source lines
491–495): the `util` row for this part number when one exists, otherwise
the `fillna(0)` defaults `(licensedUsers, activeUsers30d,
utilizationPct30d) = (0, 0, 0)`. -/
def skuSummaryFields (util : List UtilRow) (s : SkuRecord) :
    Nat × Nat × ℚ :=
  match util.find? (fun u => u.skuPartNumber == s.skuPartNumber) with
  | some u => (u.licensedUsers, u.activeUsers30d, u.utilizationPct30d)
  | none => (0, 0, 0)

/-! ## KPI rollup -/

/-- `total_licensed` (source line 507). -/
def kpiTotalLicensed (util : List UtilRow) : Nat :=
  (util.map (fun u => u.licensedUsers)).sum

/-- `total_active` (source line 508). -/
def kpiTotalActive (util : List UtilRow) : Nat :=
  (util.map (fun u => u.activeUsers30d)).sum

/-- `util_pct` (source line 509):
`round((total_active / total_licensed) * 100, 2)` when some user is
licensed, `0.0` otherwise. -/
def kpiUtilPct (util : List UtilRow) : ℚ :=
  if kpiTotalLicensed util = 0 then 0
  else roundTo 2 (((kpiTotalActive util : ℚ) / (kpiTotalLicensed util : ℚ)) * 100)

/-- The `To-Do: Licensed but inactive 30 days` KPI (source line 516):
`to_do1["UPN"].nunique()`, the number of distinct UPNs in the raw
pre-dedup rule-1 rows (`0` for an empty frame). -/
def kpiToDo1 (skus : List SkuRecord) (cutoff : Int)
    (merged : List MergedRow) : Nat :=
  ((to_do1 skus cutoff merged).map (fun m => m.user.UPN)).dedup.length

/-- The `To-Do: Disabled & licensed` KPI (source line 517):
`to_do2["UPN"].nunique()`. -/
def kpiToDo2 (skus : List SkuRecord) (cutoff : Int)
    (merged : List MergedRow) : Nat :=
  ((to_do2 skus cutoff merged).map (fun m => m.user.UPN)).dedup.length

/-! ## Excel export (source lines 547–600)

`process_and_export_data` opens `outfile_path` with
`pd.ExcelWriter(..., engine="openpyxl")` twice.  The default writer mode
is `"w"`, which creates a fresh workbook, so the second `with` block
(source lines 563–573) replaces the file written by the first
(source lines 548–559).  The first block writes the sheets Overview,
SKU_Summary, Actionable, Users; the second writes only SKU_Summary,
Actionable, Users (plus column widths).  The artifact left on disk is the
last write. -/

/-- Sheet names written by the first writer block (source lines 548–559),
in order. -/
def writerBlock1Sheets : List Str :=
  ["Overview".data, "SKU_Summary".data, "Actionable".data, "Users".data]

/-- Sheet names written by the second writer block (source lines 563–573),
in order. -/
def writerBlock2Sheets : List Str :=
  ["SKU_Summary".data, "Actionable".data, "Users".data]

/-- The successive whole-file writes of the export step, in program
order. -/
def exportWrites : List (List Str) := [writerBlock1Sheets, writerBlock2Sheets]

/-- The sheets of the artifact on disk after the export step completes:
each writer re-creates the file, so the last write wins. -/
def finalArtifactSheets : List Str := exportWrites.getLastD []

/-- The single activity row the left join attaches to a user when the
activity keys are distinct: the first (hence only) matching row's date,
`none` when nothing matches or the matched row carries `NaT`. -/
def actLookup (act : List ActivityRow) (u : UserRec) : Option Int :=
  (act.find? (fun a => normKey a.upnLower == normKey u.UPN)).bind
    (fun a => a.lastActivityDate)

/-! ## Concrete fixtures used by witnesses and counterexamples -/

/-- A user row with the given UPN, enabled flag and assigned SKU ids
(the remaining fields are irrelevant to the claims). -/
def mkUser (upn : Str) (enabled : Bool) (lics : List Str) : UserRec :=
  ⟨upn, upn, upn, enabled, "Member".data, [], lics⟩

/-- An ENTERPRISEPACK subscription row (paid SKU, cost 36.00). -/
def exSkuEP : SkuRecord := ⟨"id-ep".data, "ENTERPRISEPACK".data, 10⟩

/-- An EXCHANGEENTERPRISE subscription row (paid SKU, cost 8.00, the SKU
excluded from `paid_excl`). -/
def exSkuEE : SkuRecord := ⟨"id-ee".data, "EXCHANGEENTERPRISE".data, 10⟩

/-- A subscription row whose part number no user holds. -/
def exSkuUnused : SkuRecord := ⟨"id-z".data, "ZERO_SKU".data, 0⟩

/-- A licensed user with a duplicate-keyed activity table. -/
def exUserBob : UserRec := mkUser "bob@contoso.com".data true ["id-ep".data]

/-- First activity row with Bob's UPN. -/
def exActBob1 : ActivityRow := ⟨"bob@contoso.com".data, some 1⟩

/-- Second activity row with Bob's UPN (same key, different date). -/
def exActBob2 : ActivityRow := ⟨"bob@contoso.com".data, some 2⟩

/-- User A of the C6 scenario: only EXCHANGEENTERPRISE, disabled, no
recorded activity. -/
def exUserA : MergedRow := ⟨mkUser "a@contoso.com".data false ["id-ee".data], none⟩

/-- User B of the C6 scenario: ENTERPRISEPACK, disabled (recent activity,
which is irrelevant to rule 2). -/
def exUserB : MergedRow := ⟨mkUser "b@contoso.com".data false ["id-ep".data], some 50⟩

/-- The synthetic tenant of the C7 example: 5 users, 3 licensed (each with
the one paid SKU), 1 of them active relative to cutoff 0. -/
def exMergedC7 : List MergedRow :=
  [ ⟨mkUser "u1@c.com".data true ["id-ep".data], some 50⟩
  , ⟨mkUser "u2@c.com".data true ["id-ep".data], none⟩
  , ⟨mkUser "u3@c.com".data true ["id-ep".data], none⟩
  , ⟨mkUser "u4@c.com".data true [], none⟩
  , ⟨mkUser "u5@c.com".data true [], some 50⟩ ]

/-- A licensed inactive user appearing twice in the merged frame (as after
a duplicate-keyed join): rule 1 emits two rows but only one distinct UPN. -/
def exMergedCarolTwice : List MergedRow :=
  [ ⟨mkUser "carol@c.com".data true ["id-ep".data], none⟩
  , ⟨mkUser "carol@c.com".data true ["id-ep".data], some (-50)⟩ ]

/-- A raw Graph user lacking the `accountEnabled` field (but holding a
paid license). -/
def exRawNoEnabled : RawGraphUser :=
  ⟨"rid-1".data, none, some "noe@c.com".data, none, none, none, ["id-ep".data]⟩

/-- The SKU table of the C8 example: id `X1` resolves to part number `B`,
id `Y1` to `A`. -/
def exSkusC8 : List SkuRecord :=
  [⟨"X1".data, "B".data, 1⟩, ⟨"Y1".data, "A".data, 1⟩]

/-- The raw activity date of the C3 counterexample: a parseable ISO date
followed by a zero-width space. -/
def c3BadDate : Str := "2024-01-05".data ++ [zwspChar]

/-! ## Claim theorems -/

/-- C1: the run's output artifact must be a spreadsheet with exactly the
four sheets Overview, SKU_Summary, Actionable, Users.  The first writer
block does write those four sheets, but the export step then reopens the
file in (default) write mode and rewrites it with only three: the final
artifact contains no Overview sheet, contradicting the claim. -/
theorem C1_export_overwrites_overview :
    "Overview".data ∈ writerBlock1Sheets ∧
    finalArtifactSheets = ["SKU_Summary".data, "Actionable".data, "Users".data] ∧
    "Overview".data ∉ finalArtifactSheets ∧
    finalArtifactSheets ≠ writerBlock1Sheets := by
  decide

/-- C4: `Inactive30d` is true when the activity date is null; otherwise it
is true exactly when the Eastern activity date is on or before
`today(Eastern) − PERIOD_DAYS` days; activity exactly on the cutoff counts
as inactive, and the flag is monotone in the activity date. -/
theorem C4_inactive30d :
    ∀ (today : Int) (m : MergedRow),
      (m.lastActivityDate = none →
        Inactive30d (inactivity_cutoff today) m = true) ∧
      (∀ d : Int, m.lastActivityDate = some d →
        (Inactive30d (inactivity_cutoff today) m = true ↔
          d ≤ today - PERIOD_DAYS)) ∧
      (m.lastActivityDate = some (today - PERIOD_DAYS) →
        Inactive30d (inactivity_cutoff today) m = true) ∧
      (∀ (m' : MergedRow) (d d' : Int), m.lastActivityDate = some d →
        m'.lastActivityDate = some d' → d ≤ d' →
        Inactive30d (inactivity_cutoff today) m' = true →
        Inactive30d (inactivity_cutoff today) m = true) := by
  intro today m
  refine ⟨fun h => by simp [Inactive30d, h], fun d h => ?_, fun h => ?_, ?_⟩
  · simp [Inactive30d, h, inactivity_cutoff]
  · simp [Inactive30d, h, inactivity_cutoff]
  · intro m' d d' hm hm' hdd h'
    simp only [Inactive30d, hm, hm', inactivity_cutoff,
      decide_eq_true_eq] at h' ⊢
    omega

/-- Closed instance of `C4_inactive30d`: activity exactly on the cutoff
(day 70 against today 100) is flagged inactive, and a null activity date is
flagged inactive. -/
theorem C4_inactive30d_witness :
    Inactive30d (inactivity_cutoff 100)
      ⟨mkUser "w@c.com".data true [], some 70⟩ = true ∧
    Inactive30d (inactivity_cutoff 100)
      ⟨mkUser "w@c.com".data true [], none⟩ = true := by
  refine ⟨((C4_inactive30d 100 _).2.1 70 rfl).mpr (by decide),
    (C4_inactive30d 100 _).1 rfl⟩

/-- C10: a fetched user record lacking `accountEnabled` defaults it to
`true` (source line 247), so no `to_do2` (DISABLED_BUT_LICENSED) row can be
that user's ingested row, whatever licenses are held. -/
theorem C10_missing_accountEnabled_never_disabled_rule :
    (∀ u : RawGraphUser, u.accountEnabled = none →
      (get_all_users_row u).accountEnabled = true) ∧
    (∀ (skus : List SkuRecord) (cutoff : Int) (merged : List MergedRow)
      (u : RawGraphUser), u.accountEnabled = none →
      ∀ r ∈ to_do2 skus cutoff merged, r.user ≠ get_all_users_row u) := by
  constructor
  · intro u h
    simp [get_all_users_row, h]
  · intro skus cutoff merged u hu r hr heq
    have h2 := (List.mem_filter.mp hr).2
    simp only [to_do2, Bool.and_eq_true, beq_iff_eq] at h2
    have hen : r.user.accountEnabled = false := h2.2
    rw [heq] at hen
    simp [get_all_users_row, hu] at hen

/-- Closed instance of `C10_missing_accountEnabled_never_disabled_rule`:
the concrete field-less raw user ingests as enabled, and the concrete
`to_do2` member `exUserB` is not that user's row. -/
theorem C10_witness :
    (get_all_users_row exRawNoEnabled).accountEnabled = true ∧
    exUserB.user ≠ get_all_users_row exRawNoEnabled := by
  refine ⟨C10_missing_accountEnabled_never_disabled_rule.1 exRawNoEnabled rfl,
    C10_missing_accountEnabled_never_disabled_rule.2 [exSkuEP] 0 [exUserB]
      exRawNoEnabled rfl exUserB (by decide)⟩

/-- C6 counterexample: user A (only SKU EXCHANGEENTERPRISE, account
disabled, no recorded activity) does appear in an actionable rule — rule 1
(LICENSED_BUT_INACTIVE) emits them, because EXCHANGEENTERPRISE has a
positive unit cost and is only excluded from rule 2's paid set.  The claim
that such a user appears in no actionable rule is therefore false. -/
theorem C6_counterexample :
    actionableRows [exSkuEE] 0 [exUserA] = [⟨reasonInactive, exUserA⟩] ∧
    actionableRows [exSkuEE] 0 [exUserA] ≠ [] := by
  decide

/-- C6 (amended): a user whose licenses resolve to exactly
EXCHANGEENTERPRISE never appears under the DISABLED_BUT_LICENSED rule
(`to_do2`), whatever their account or activity state; and user B
(ENTERPRISEPACK, disabled) does appear under DISABLED_BUT_LICENSED. -/
theorem C6_excluded_sku_amended :
    (∀ (skus : List SkuRecord) (cutoff : Int) (merged : List MergedRow),
      ∀ r ∈ to_do2 skus cutoff merged,
        licensesStr skus r.user.assignedLicenses ≠
          "EXCHANGEENTERPRISE".data) ∧
    exUserB ∈ to_do2 [exSkuEP] 0 [exUserB] ∧
    ⟨reasonDisabled, exUserB⟩ ∈ actionableRows [exSkuEP] 0 [exUserB] := by
  refine ⟨?_, by decide, by decide⟩
  intro skus cutoff merged r hr heq
  have h2 := (List.mem_filter.mp hr).2
  simp only [to_do2, Bool.and_eq_true] at h2
  have hex : hasPaidLicenseExclExchEnt skus r = true := h2.1.2
  rw [hasPaidLicenseExclExchEnt, heq] at hex
  have hfalse : has_paid_excl "EXCHANGEENTERPRISE".data = false := by decide
  rw [hfalse] at hex
  exact Bool.false_ne_true hex

/-- Closed instance of `C6_excluded_sku_amended`: applied to the concrete
`to_do2` member `exUserB`, whose licenses indeed differ from the bare
EXCHANGEENTERPRISE string. -/
theorem C6_witness :
    licensesStr [exSkuEP] exUserB.user.assignedLicenses ≠
      "EXCHANGEENTERPRISE".data :=
  C6_excluded_sku_amended.1 [exSkuEP] 0 [exUserB] exUserB (by decide)

/-- C3 counterexample: the pipeline's own date conversion (source line 426)
does not strip zero-width spaces — on a parseable ISO date followed by
U+200B it coerces to `NaT` — while `parse_date_any` (which the pipeline
never calls) would strip the character and parse the date. -/
theorem C3_counterexample :
    convertActivityDates [("alice@c.com".data, some c3BadDate)] =
      [("alice@c.com".data, none)] ∧
    parse_date_any (some c3BadDate) = some ⟨2024, 1, 5, 0, 0, 0⟩ := by
  decide

/-- C3 (amended): the helper `parse_date_any` implements the described
scrubbing (whitespace strip, zero-width-space/no-break-space/BOM removal,
case-insensitive `nan`, removal of `Z` and `.000`) and yields null rather
than an error on unparseable input; the pipeline's activity-date
conversion, however, is a plain coercing parse applied pairwise with no
scrubbing. -/
theorem C3_date_parsing_amended :
    (∀ l : List (Str × Option Str),
      convertActivityDates l =
        l.map (fun p => (p.1, p.2.bind parseTimestamp))) ∧
    parse_date_any none = none ∧
    parse_date_any (some ([zwspChar] ++ " 2024-01-05T10:20:30.000Z".data ++
      [bomChar, ' '])) = some ⟨2024, 1, 5, 10, 20, 30⟩ ∧
    parse_date_any (some ([nbspChar] ++ "2024-01-05".data)) =
      some ⟨2024, 1, 5, 0, 0, 0⟩ ∧
    parse_date_any (some " NaN ".data) = none ∧
    parse_date_any (some "garbage".data) = none ∧
    coerceParse (some "garbage".data) = none ∧
    coerceParse (some " 2024-01-05T10:20:30.000Z ".data) =
      some ⟨2024, 1, 5, 10, 20, 30⟩ := by
  exact ⟨fun l => rfl, by decide, by decide, by decide, by decide,
    by decide, by decide, by decide⟩

/-- C8: a user's displayed license parts are the assigned ids resolved to
part numbers (unresolved ids verbatim), deduplicated, and sorted; on the
claim's example, ids `[X1, Y1, X1]` resolving to `["B", "A", "B"]` join to
exactly `"A;B"`. -/
theorem C8_license_string_assembly :
    (∀ (skus : List SkuRecord) (arr : List Str),
      List.Sorted (· ≤ ·) (licenseParts skus arr) ∧
      (licenseParts skus arr).Nodup ∧
      (∀ s : Str, s ∈ licenseParts skus arr ↔
        ∃ x ∈ arr, resolveSku skus x = s)) ∧
    (∀ (skus : List SkuRecord) (x : Str),
      (∀ r ∈ skus, r.skuId ≠ x) → resolveSku skus x = x) ∧
    licensesStr exSkusC8 ["X1".data, "Y1".data, "X1".data] = "A;B".data := by
  refine ⟨?_, ?_, by decide⟩
  · intro skus arr
    refine ⟨List.sorted_insertionSort _ _, ?_, ?_⟩
    · exact (List.perm_insertionSort (· ≤ ·)
        ((arr.map (resolveSku skus)).dedup)).nodup_iff.mpr
        (List.nodup_dedup _)
    · intro s
      constructor
      · intro hs
        have hs' : s ∈ (arr.map (resolveSku skus)).dedup :=
          ((List.perm_insertionSort _ _).mem_iff).mp hs
        exact List.mem_map.mp (List.mem_dedup.mp hs')
      · rintro ⟨x, hx, rfl⟩
        exact ((List.perm_insertionSort _ _).mem_iff).mpr
          (List.mem_dedup.mpr (List.mem_map.mpr ⟨x, hx, rfl⟩))
  · intro skus x hx
    have hnone : skus.reverse.find? (fun r => r.skuId == x) = none := by
      rw [List.find?_eq_none]
      intro r hr
      simp only [beq_iff_eq]
      exact hx r (List.mem_reverse.mp hr)
    simp only [resolveSku, hnone]

/-- Closed instance of `C8_license_string_assembly`: an id absent from the
SKU table passes through verbatim. -/
theorem C8_witness : resolveSku [] "Q9".data = "Q9".data :=
  C8_license_string_assembly.2.1 [] "Q9".data (by simp)

/-- When the mapped keys of a list are pairwise distinct, filtering by any
one key yields nothing or exactly the element `find?` locates. -/
theorem filter_find_of_nodup_keys {α κ : Type} [BEq κ] [LawfulBEq κ]
    (f : α → κ) :
    ∀ l : List α, (l.map f).Nodup → ∀ k : κ,
      (l.filter (fun a => f a == k) = [] ∧
        l.find? (fun a => f a == k) = none) ∨
      (∃ a, l.filter (fun a => f a == k) = [a] ∧
        l.find? (fun a => f a == k) = some a) := by
  intro l
  induction l with
  | nil => exact fun _ _ => Or.inl ⟨rfl, rfl⟩
  | cons x t ih =>
    intro hnd k
    have hx : f x ∉ t.map f := (List.nodup_cons.mp hnd).1
    have hnd' : (t.map f).Nodup := (List.nodup_cons.mp hnd).2
    by_cases hk : f x = k
    · subst hk
      have ht : t.filter (fun a => f a == f x) = [] := by
        rw [List.filter_eq_nil_iff]
        intro a ha hfa
        rw [beq_iff_eq] at hfa
        exact hx (hfa ▸ List.mem_map_of_mem f ha)
      refine Or.inr ⟨x, ?_, ?_⟩
      · rw [List.filter_cons_of_pos (by simp), ht]
      · rw [List.find?_cons_of_pos _ (by simp)]
    · have hfilter : (x :: t).filter (fun a => f a == k) =
          t.filter (fun a => f a == k) :=
        List.filter_cons_of_neg (by simp [hk])
      have hfind : (x :: t).find? (fun a => f a == k) =
          t.find? (fun a => f a == k) :=
        List.find?_cons_of_neg _ (by simp [hk])
      rcases ih hnd' k with ⟨h1, h2⟩ | ⟨a, h1, h2⟩
      · exact Or.inl ⟨by rw [hfilter, h1], by rw [hfind, h2]⟩
      · exact Or.inr ⟨a, by rw [hfilter, h1], by rw [hfind, h2]⟩

/-- C2 counterexample: with two activity rows carrying Bob's UPN, the left
merge emits Bob twice — both in the joined result and in the sorted Users
sheet — so "each user appears exactly once ... regardless of how many
activity rows carry that user's UPN" is false as stated. -/
theorem C2_counterexample :
    (leftMerge [exUserBob] [exActBob1, exActBob2]).length = 2 ∧
    (leftMerge [exUserBob] [exActBob1, exActBob2]).countP
      (fun r => r.user == exUserBob) = 2 ∧
    (usersSheetRows (leftMerge [exUserBob] [exActBob1, exActBob2])).length
      = 2 := by
  decide

/-- C2 (amended): provided the activity rows' normalized UPN keys are
pairwise distinct, the left join emits exactly one row per input user — in
input order, carrying the unique matching activity date, null when no
activity row matches — and the Users sheet has one row per input user. -/
theorem C2_left_join_amended :
    ∀ (users : List UserRec) (act : List ActivityRow),
      (act.map (fun a => normKey a.upnLower)).Nodup →
      leftMerge users act =
        users.map (fun u => MergedRow.mk u (actLookup act u)) ∧
      (usersSheetRows (leftMerge users act)).length = users.length := by
  intro users act hnd
  have heq : leftMerge users act =
      users.map (fun u => MergedRow.mk u (actLookup act u)) := by
    induction users with
    | nil => rfl
    | cons u us ih =>
      simp only [leftMerge, List.flatMap_cons, List.map_cons] at ih ⊢
      rcases filter_find_of_nodup_keys (fun a => normKey a.upnLower) act hnd
          (normKey u.UPN) with ⟨h1, h2⟩ | ⟨a, h1, h2⟩
      · have h1' : List.filter (fun a => normKey a.upnLower == normKey u.UPN)
            act = [] := h1
        have h2' : List.find? (fun a => normKey a.upnLower == normKey u.UPN)
            act = none := h2
        rw [ih, h1']
        simp [actLookup, h2']
      · have h1' : List.filter (fun a => normKey a.upnLower == normKey u.UPN)
            act = [a] := h1
        have h2' : List.find? (fun a => normKey a.upnLower == normKey u.UPN)
            act = some a := h2
        rw [ih, h1']
        simp [actLookup, h2']
  refine ⟨heq, ?_⟩
  rw [usersSheetRows,
    (List.perm_insertionSort _ (leftMerge users act)).length_eq, heq,
    List.length_map]

/-- Closed instance of `C2_left_join_amended`: a single-row activity table
has distinct keys, and the join emits Bob exactly once. -/
theorem C2_witness :
    leftMerge [exUserBob] [exActBob1] =
      [exUserBob].map (fun u => MergedRow.mk u (actLookup [exActBob1] u)) ∧
    (usersSheetRows (leftMerge [exUserBob] [exActBob1])).length = 1 :=
  C2_left_join_amended [exUserBob] [exActBob1] (by decide)

/-- Every row kept by `dropDupByKey` comes from the input. -/
theorem mem_of_mem_dropDupByKey {α κ : Type} [DecidableEq κ] (key : α → κ) :
    ∀ (n : ℕ) (l : List α), l.length ≤ n →
      ∀ x ∈ dropDupByKey key l, x ∈ l := by
  intro n
  induction n with
  | zero =>
    intro l hl x hx
    cases l with
    | nil => simpa [dropDupByKey] using hx
    | cons y ys => simp at hl
  | succ n ih =>
    intro l hl x hx
    cases l with
    | nil => simpa [dropDupByKey] using hx
    | cons y ys =>
      simp only [dropDupByKey, List.mem_cons] at hx
      rcases hx with rfl | hx
      · exact List.mem_cons_self _ _
      · have hlen : (ys.filter (fun z => !(key z == key y))).length ≤ n :=
          le_trans (List.length_filter_le _ _) (Nat.le_of_succ_le_succ hl)
        exact List.mem_cons_of_mem _
          (List.mem_of_mem_filter (ih _ hlen x hx))

/-- `dropDupByKey` leaves pairwise-distinct keys. -/
theorem nodup_keys_dropDupByKey {α κ : Type} [DecidableEq κ] (key : α → κ) :
    ∀ (n : ℕ) (l : List α), l.length ≤ n →
      ((dropDupByKey key l).map key).Nodup := by
  intro n
  induction n with
  | zero =>
    intro l hl
    cases l with
    | nil => simp [dropDupByKey]
    | cons y ys => simp at hl
  | succ n ih =>
    intro l hl
    cases l with
    | nil => simp [dropDupByKey]
    | cons y ys =>
      have hlen : (ys.filter (fun z => !(key z == key y))).length ≤ n :=
        le_trans (List.length_filter_le _ _) (Nat.le_of_succ_le_succ hl)
      simp only [dropDupByKey, List.map_cons, List.nodup_cons]
      refine ⟨?_, ih _ hlen⟩
      intro hmem
      obtain ⟨z, hz, hkz⟩ := List.mem_map.mp hmem
      have hz' : z ∈ ys.filter (fun z => !(key z == key y)) :=
        mem_of_mem_dropDupByKey key n _ hlen z hz
      have := List.of_mem_filter hz'
      simp only [Bool.not_eq_true', beq_eq_false_iff_ne] at this
      exact this hkz

instance : IsTotal ActionableRow actLE := by
  constructor
  intro a b
  rcases lt_trichotomy a.reason b.reason with h | h | h
  · exact Or.inl (Or.inl h)
  · rcases le_total a.row.user.UPN b.row.user.UPN with h2 | h2
    · exact Or.inl (Or.inr ⟨h, h2⟩)
    · exact Or.inr (Or.inr ⟨h.symm, h2⟩)
  · exact Or.inr (Or.inl h)

instance : IsTrans ActionableRow actLE := by
  constructor
  intro a b c hab hbc
  rcases hab with h1 | ⟨e1, l1⟩
  · rcases hbc with h2 | ⟨e2, _⟩
    · exact Or.inl (lt_trans h1 h2)
    · exact Or.inl (e2 ▸ h1)
  · rcases hbc with h2 | ⟨e2, l2⟩
    · exact Or.inl (e1 ▸ h2)
    · exact Or.inr ⟨e1.trans e2, le_trans l1 l2⟩

/-- C5: the exported Actionable sheet carries at most one row per
`(reason, UPN)` pair — even when both rules emit the same user — and its
rows are sorted by `(reason, UPN)`. -/
theorem C5_actionable_unique_sorted :
    ∀ (skus : List SkuRecord) (cutoff : Int) (merged : List MergedRow),
      ((actionableSheet skus cutoff merged).map actKey).Nodup ∧
      List.Sorted actLE (actionableSheet skus cutoff merged) := by
  intro skus cutoff merged
  constructor
  · have h1 : ((dropDupByKey actKey
        (actionableRows skus cutoff merged)).map actKey).Nodup :=
      nodup_keys_dropDupByKey actKey _ _ le_rfl
    have hp := List.perm_insertionSort actLE
      (dropDupByKey actKey (actionableRows skus cutoff merged))
    exact ((hp.map actKey).nodup_iff).mpr h1
  · exact List.sorted_insertionSort _ _

/-- Every row of the `util` frame counts at least one licensed holding,
and carries the rounded utilization ratio of its own counts. -/
theorem utilRow_mem_spec :
    ∀ (skus : List SkuRecord) (cutoff : Int) (merged : List MergedRow),
      ∀ u ∈ utilTable skus cutoff merged,
        0 < u.licensedUsers ∧
        u.utilizationPct30d =
          roundTo 4 ((u.activeUsers30d : ℚ) / (u.licensedUsers : ℚ)) * 100 := by
  intro skus cutoff merged u hu
  simp only [utilTable] at hu
  obtain ⟨k, hk, rfl⟩ := List.mem_map.mp hu
  refine ⟨?_, rfl⟩
  have hk' : k ∈ (skuStats skus cutoff merged).map (fun s => s.1) :=
    List.mem_dedup.mp hk
  obtain ⟨s, hs, hsk⟩ := List.mem_map.mp hk'
  have hmem : s ∈ (skuStats skus cutoff merged).filter
      (fun s => s.1 == k) :=
    List.mem_filter.mpr ⟨hs, by simp [hsk]⟩
  simpa using List.length_pos.mpr (List.ne_nil_of_mem hmem)

/-- C9: a SKU summary row's `utilizationPct30d` is
`round(active/licensed, 4) × 100` whenever its `licensedUsers` is
positive, and is `0` — with no division ever evaluated — when
`licensedUsers` is `0` (such SKUs never enter the `util` frame; their
columns come from `fillna(0)`). -/
theorem C9_sku_utilization_safe :
    ∀ (skus : List SkuRecord) (cutoff : Int) (merged : List MergedRow)
      (s : SkuRecord),
      ((skuSummaryFields (utilTable skus cutoff merged) s).1 = 0 →
        (skuSummaryFields (utilTable skus cutoff merged) s).2.2 = 0) ∧
      (0 < (skuSummaryFields (utilTable skus cutoff merged) s).1 →
        (skuSummaryFields (utilTable skus cutoff merged) s).2.2 =
          roundTo 4
            (((skuSummaryFields (utilTable skus cutoff merged) s).2.1 : ℚ) /
              ((skuSummaryFields (utilTable skus cutoff merged) s).1 : ℚ)) *
          100) := by
  intro skus cutoff merged s
  rcases hf : (utilTable skus cutoff merged).find?
      (fun u => u.skuPartNumber == s.skuPartNumber) with _ | u
  · constructor
    · intro _
      simp [skuSummaryFields, hf]
    · intro h
      simp [skuSummaryFields, hf] at h
  · have hu : u ∈ utilTable skus cutoff merged := List.mem_of_find?_eq_some hf
    have hspec := utilRow_mem_spec skus cutoff merged u hu
    constructor
    · intro h0
      have h1 : (skuSummaryFields (utilTable skus cutoff merged) s).1 =
          u.licensedUsers := by
        simp [skuSummaryFields, hf]
      rw [h1] at h0
      omega
    · intro _
      simp [skuSummaryFields, hf, hspec.2]

/-- Closed instance of `C9_sku_utilization_safe`: a SKU no user holds gets
utilization `0`, and the held SKU's percentage is the rounded ratio of its
own counts. -/
theorem C9_witness :
    (skuSummaryFields (utilTable [exSkuEP, exSkuUnused] 0 exMergedC7)
      exSkuUnused).2.2 = 0 ∧
    (skuSummaryFields (utilTable [exSkuEP, exSkuUnused] 0 exMergedC7)
      exSkuEP).2.2 =
      roundTo 4
        (((skuSummaryFields (utilTable [exSkuEP, exSkuUnused] 0 exMergedC7)
            exSkuEP).2.1 : ℚ) /
          ((skuSummaryFields (utilTable [exSkuEP, exSkuUnused] 0 exMergedC7)
            exSkuEP).1 : ℚ)) * 100 :=
  ⟨(C9_sku_utilization_safe [exSkuEP, exSkuUnused] 0 exMergedC7
      exSkuUnused).1 (by decide),
    (C9_sku_utilization_safe [exSkuEP, exSkuUnused] 0 exMergedC7
      exSkuEP).2 (by decide)⟩

/-- Summing a constant-zero map gives zero. -/
theorem sum_map_const_zero {κ : Type} (keys : List κ) :
    (keys.map (fun _ => (0 : ℕ))).sum = 0 := by
  induction keys with
  | nil => rfl
  | cons a t ih => simp [ih]

/-- Pointwise sums split. -/
theorem sum_map_add_distrib {κ : Type} (keys : List κ) (f g : κ → ℕ) :
    (keys.map (fun k => f k + g k)).sum = (keys.map f).sum + (keys.map g).sum := by
  induction keys with
  | nil => rfl
  | cons a t ih =>
    simp only [List.map_cons, List.sum_cons, ih]
    omega

/-- Over pairwise-distinct keys containing `c`, the indicator of `c` sums
to one. -/
theorem sum_map_indicator_of_nodup {κ : Type} [BEq κ] [LawfulBEq κ] :
    ∀ (keys : List κ) (c : κ), keys.Nodup → c ∈ keys →
      (keys.map (fun k => if c == k then (1 : ℕ) else 0)).sum = 1 := by
  intro keys
  induction keys with
  | nil =>
    intro c _ hc
    simp at hc
  | cons a t ih =>
    intro c hnd hc
    have hna : a ∉ t := (List.nodup_cons.mp hnd).1
    have hnd' : t.Nodup := (List.nodup_cons.mp hnd).2
    by_cases hca : c = a
    · subst hca
      have hz : ∀ k ∈ t, (if c == k then (1 : ℕ) else 0) = 0 := by
        intro k hk
        have hne : c ≠ k := fun h => hna (h ▸ hk)
        simp [hne]
      simp only [List.map_cons, List.sum_cons, beq_self_eq_true, if_true]
      rw [List.map_congr_left hz, sum_map_const_zero]
    · have hct : c ∈ t := by
        rcases List.mem_cons.mp hc with h | h
        · exact absurd h hca
        · exact h
      simp only [List.map_cons, List.sum_cons]
      rw [if_neg (by simp [hca]), ih c hnd' hct]

/-- Partition of a filtered length over a pairwise-distinct key cover: the
per-key counts of elements satisfying `p` sum to the total count of
elements satisfying `p`. -/
theorem sum_filter_partition {α κ : Type} [BEq κ] [LawfulBEq κ]
    (f : α → κ) (p : α → Bool) :
    ∀ (l : List α) (keys : List κ), keys.Nodup →
      (∀ x ∈ l, p x = true → f x ∈ keys) →
      (keys.map (fun k =>
        (l.filter (fun x => p x && (f x == k))).length)).sum =
      (l.filter p).length := by
  intro l
  induction l with
  | nil =>
    intro keys _ _
    simp only [List.filter_nil, List.length_nil]
    exact sum_map_const_zero keys
  | cons x t ih =>
    intro keys hnd hmem
    have hstep : ∀ k ∈ keys,
        ((x :: t).filter (fun y => p y && (f y == k))).length =
        (if p x && (f x == k) then (1 : ℕ) else 0) +
          (t.filter (fun y => p y && (f y == k))).length := by
      intro k _
      by_cases h : (p x && (f x == k)) = true
      · simp only [List.filter_cons, h, if_true, List.length_cons]
        omega
      · simp [List.filter_cons, h]
    have h1 : (keys.map (fun k =>
        ((x :: t).filter (fun y => p y && (f y == k))).length)).sum =
        (keys.map (fun k => if p x && (f x == k) then (1 : ℕ) else 0)).sum +
        (keys.map (fun k =>
          (t.filter (fun y => p y && (f y == k))).length)).sum := by
      rw [List.map_congr_left hstep]
      exact sum_map_add_distrib keys _ _
    have h2 := ih keys hnd
      (fun y hy hp => hmem y (List.mem_cons_of_mem _ hy) hp)
    by_cases hp : p x = true
    · have h3 : (keys.map
          (fun k => if p x && (f x == k) then (1 : ℕ) else 0)).sum = 1 := by
        have hcong : ∀ k ∈ keys, (if p x && (f x == k) then (1 : ℕ) else 0) =
            (if f x == k then (1 : ℕ) else 0) := by
          intro k _
          rw [hp, Bool.true_and]
        rw [List.map_congr_left hcong]
        exact sum_map_indicator_of_nodup keys (f x) hnd
          (hmem x (List.mem_cons_self _ _) hp)
      have h4 : ((x :: t).filter p).length = (t.filter p).length + 1 := by
        simp [List.filter_cons, hp]
      omega
    · have hp' : p x = false := by
        revert hp
        cases p x <;> simp
      have h3 : (keys.map
          (fun k => if p x && (f x == k) then (1 : ℕ) else 0)).sum = 0 := by
        have hcong : ∀ k ∈ keys,
            (if p x && (f x == k) then (1 : ℕ) else 0) = 0 := by
          intro k _
          simp [hp']
        rw [List.map_congr_left hcong]
        exact sum_map_const_zero keys
      have h4 : ((x :: t).filter p).length = (t.filter p).length := by
        simp [List.filter_cons, hp']
      omega

/-- The KPI totals of the `util` frame equal the global holding counts:
summing `licensedUsers` over the grouped table counts every licensed
`(user, SKU)` holding once, and summing `activeUsers30d` counts the
active holdings. -/
theorem utilTable_totals :
    ∀ (skus : List SkuRecord) (cutoff : Int) (merged : List MergedRow),
      kpiTotalLicensed (utilTable skus cutoff merged) =
        (skuStats skus cutoff merged).length ∧
      kpiTotalActive (utilTable skus cutoff merged) =
        ((skuStats skus cutoff merged).filter (fun s => s.2)).length := by
  intro skus cutoff merged
  have hkeys : ((skuStats skus cutoff merged).map
      (fun s => s.1)).dedup.Nodup := List.nodup_dedup _
  constructor
  · have hpart := sum_filter_partition (fun s : Str × Bool => s.1)
      (fun _ => true) (skuStats skus cutoff merged)
      ((skuStats skus cutoff merged).map (fun s => s.1)).dedup hkeys
      (fun x hx _ => List.mem_dedup.mpr (List.mem_map_of_mem _ hx))
    have hconv : ∀ k ∈ ((skuStats skus cutoff merged).map
        (fun s => s.1)).dedup,
        ((skuStats skus cutoff merged).filter
          (fun x => true && (x.1 == k))).length =
        ((skuStats skus cutoff merged).filter (fun s => s.1 == k)).length := by
      intro k _
      rw [List.filter_congr (fun x _ => by rw [Bool.true_and])]
    rw [List.map_congr_left hconv] at hpart
    have hfull : (skuStats skus cutoff merged).filter (fun _ => true) =
        skuStats skus cutoff merged := List.filter_true _
    rw [hfull] at hpart
    calc kpiTotalLicensed (utilTable skus cutoff merged)
        = (((skuStats skus cutoff merged).map (fun s => s.1)).dedup.map
            (fun k => ((skuStats skus cutoff merged).filter
              (fun s => s.1 == k)).length)).sum := by
          simp only [kpiTotalLicensed, utilTable, List.map_map]
          rfl
      _ = (skuStats skus cutoff merged).length := hpart
  · have hpart := sum_filter_partition (fun s : Str × Bool => s.1)
      (fun s => s.2) (skuStats skus cutoff merged)
      ((skuStats skus cutoff merged).map (fun s => s.1)).dedup hkeys
      (fun x hx _ => List.mem_dedup.mpr (List.mem_map_of_mem _ hx))
    have hconv : ∀ k ∈ ((skuStats skus cutoff merged).map
        (fun s => s.1)).dedup,
        ((skuStats skus cutoff merged).filter
          (fun x => x.2 && (x.1 == k))).length =
        (((skuStats skus cutoff merged).filter
          (fun s => s.1 == k)).filter (fun s => s.2)).length := by
      intro k _
      rw [List.filter_filter]
    rw [List.map_congr_left hconv] at hpart
    calc kpiTotalActive (utilTable skus cutoff merged)
        = (((skuStats skus cutoff merged).map (fun s => s.1)).dedup.map
            (fun k => (((skuStats skus cutoff merged).filter
              (fun s => s.1 == k)).filter (fun s => s.2)).length)).sum := by
          simp only [kpiTotalActive, utilTable, List.map_map]
          rfl
      _ = ((skuStats skus cutoff merged).filter (fun s => s.2)).length := hpart

/-- C7: the KPI rollup sums `licensedUsers` / `activeUsers30d` over the
unfiltered `util` table (equivalently, counts all licensed holdings and
active holdings); `overallUtilizationPct` is
`round(100 × activeTotal / licensedTotal, 2)`, `0.0` when nothing is
licensed; the two to-do KPI lines count distinct UPNs of the raw
pre-dedup rule results (the concrete duplicate-row input shows the
distinct-UPN count, not the row count); and the 3-licensed/1-active
example yields `33.33`. -/
theorem C7_kpi_rollup :
    (∀ (skus : List SkuRecord) (cutoff : Int) (merged : List MergedRow),
      kpiTotalLicensed (utilTable skus cutoff merged) =
        (skuStats skus cutoff merged).length ∧
      kpiTotalActive (utilTable skus cutoff merged) =
        ((skuStats skus cutoff merged).filter (fun s => s.2)).length ∧
      (kpiTotalLicensed (utilTable skus cutoff merged) = 0 →
        kpiUtilPct (utilTable skus cutoff merged) = 0) ∧
      (0 < kpiTotalLicensed (utilTable skus cutoff merged) →
        kpiUtilPct (utilTable skus cutoff merged) =
          roundTo 2
            (100 * (kpiTotalActive (utilTable skus cutoff merged) : ℚ) /
              (kpiTotalLicensed (utilTable skus cutoff merged) : ℚ))) ∧
      kpiToDo1 skus cutoff merged =
        ((to_do1 skus cutoff merged).map (fun m => m.user.UPN)).dedup.length ∧
      kpiToDo2 skus cutoff merged =
        ((to_do2 skus cutoff merged).map (fun m => m.user.UPN)).dedup.length) ∧
    kpiUtilPct (utilTable [exSkuEP] 0 exMergedC7) = 3333/100 ∧
    (to_do1 [exSkuEP] 0 exMergedCarolTwice).length = 2 ∧
    kpiToDo1 [exSkuEP] 0 exMergedCarolTwice = 1 := by
  refine ⟨?_, ?_, by decide, by decide⟩
  · intro skus cutoff merged
    refine ⟨(utilTable_totals skus cutoff merged).1,
      (utilTable_totals skus cutoff merged).2, ?_, ?_, rfl, rfl⟩
    · intro h
      rw [kpiUtilPct, if_pos h]
    · intro h
      rw [kpiUtilPct, if_neg (by omega)]
      congr 1
      ring
  · have hl : kpiTotalLicensed (utilTable [exSkuEP] 0 exMergedC7) = 3 := by
      decide
    have ha : kpiTotalActive (utilTable [exSkuEP] 0 exMergedC7) = 1 := by
      decide
    rw [kpiUtilPct, hl, ha]
    norm_num [roundTo, roundHalfEven]

/-- Closed instance of `C7_kpi_rollup`: the concrete tenant has positive
licensed total, so its percentage is the rounded ratio, and an empty
tenant reports `0.0`. -/
theorem C7_witness :
    kpiUtilPct (utilTable [exSkuEP] 0 exMergedC7) =
      roundTo 2
        (100 * (kpiTotalActive (utilTable [exSkuEP] 0 exMergedC7) : ℚ) /
          (kpiTotalLicensed (utilTable [exSkuEP] 0 exMergedC7) : ℚ)) ∧
    kpiUtilPct (utilTable [exSkuEP] 0 []) = 0 :=
  ⟨(C7_kpi_rollup.1 [exSkuEP] 0 exMergedC7).2.2.2.1 (by decide),
    (C7_kpi_rollup.1 [exSkuEP] 0 []).2.2.1 (by decide)⟩
